import Mathlib

/-!
Verification development for the Notion integration repository
(`main.py` and `qr_generator.py`).

The embedded fragment covers the pagination-and-flattening pipeline and the
grouping/rendering pass:

* the property flattener of `test_database_access` (main.py lines 183-193),
* the paginated test endpoint `test_pagination` (main.py lines 210-242),
* the unbounded batch pagination loop of `generate_all_qrs`
  (qr_generator.py lines 119-139),
* the grouping/aggregation pass of `generate_all_qrs`
  (qr_generator.py lines 144-166),
* the per-item renderer `generate_item_qr` (qr_generator.py lines 51-91)
  and the rendering driver (qr_generator.py lines 168-184).

Python builtins used by the source (`int`, `str.isalnum`, `str.isspace`,
`str.rstrip`) are modelled explicitly below; the character-level models are
tabulated exactly for code points below 0x100 (Basic Latin plus Latin-1
Supplement), which covers every concrete input used in this development.
-/

/-- One rich-text fragment of a Notion `title` or `rich_text` property.
`plain_text` models the fragment's `plain_text` field (used by the HTTP
flattener); `content` models `fragment.text.content` (used by the QR
generator), with `none` standing for a missing `text`/`content` key. -/
structure Fragment where
  plain_text : String
  content : Option String
deriving DecidableEq

/-- A flattened scalar payload, as produced by the property flattener. -/
inductive Value where
  | str : String → Value
  | intVal : Int → Value
  | boolVal : Bool → Value
  | strList : List String → Value
  | null : Value
deriving DecidableEq

/-- A typed Notion property: the tagged union dispatched on by
`prop_data["type"]` in main.py lines 184-193. `other` carries the payload
keyed by the kind name (`prop_data[prop_data["type"]]`). -/
inductive TypedProperty where
  | title : List Fragment → TypedProperty
  | rich_text : List Fragment → TypedProperty
  | other : String → Value → TypedProperty
deriving DecidableEq

/-- One record (page) fetched from the remote database. -/
structure Record where
  id : String
  url : String
  created_time : String
  last_edited_time : String
  properties : List (String × TypedProperty)
deriving DecidableEq

/-- A record after property flattening (main.py lines 173-195). -/
structure FlatRecord where
  id : String
  url : String
  created_time : String
  last_edited_time : String
  properties : List (String × Value)
deriving DecidableEq

/-- One raw response of the remote paged query endpoint. -/
structure QueryResponse where
  results : List Record
  has_more : Bool
  next_cursor : Option String

/-- The response envelope built by `test_database_access`
(main.py lines 164-170). -/
structure ListEnvelope where
  object : String
  results : List FlatRecord
  has_more : Bool
  next_cursor : Option String
  type : String

/-- The summary returned by `test_pagination` (main.py lines 238-242). -/
structure PaginationSummary where
  total_pages_fetched : Nat
  pagination_rounds : Nat
  pages : List FlatRecord
deriving DecidableEq

/-- Python dict lookup on the property bag (association list, first match). -/
def lookupProp (name : String) : List (String × TypedProperty) → Option TypedProperty
  | [] => none
  | (k, p) :: rest => if k = name then some p else lookupProp name rest

/-- Python `"".join(text["plain_text"] for text in fragments)`
(main.py lines 185-186 and 189-190). -/
def joinPlainText (fs : List Fragment) : String :=
  String.join (fs.map Fragment.plain_text)

/-- The per-property dispatch of the flattener (main.py lines 184-193):
`title` and `rich_text` concatenate the fragments' `plain_text`; every other
kind passes its payload through verbatim. -/
def flattenProp : TypedProperty → Value
  | .title fs => .str (joinPlainText fs)
  | .rich_text fs => .str (joinPlainText fs)
  | .other _ v => v

/-- The flattener applied to a whole property bag (main.py lines 183-193). -/
def flattenProps (props : List (String × TypedProperty)) : List (String × Value) :=
  props.map (fun p => (p.1, flattenProp p.2))

/-- Formatting of one page by `test_database_access` (main.py lines 173-195). -/
def flattenRecord (r : Record) : FlatRecord :=
  { id := r.id, url := r.url, created_time := r.created_time,
    last_edited_time := r.last_edited_time, properties := flattenProps r.properties }

/-- Model of `test_database_access` (main.py lines 149-197): one remote query
with the page size clamped to 100, results flattened, envelope fields copied
from the remote response. The remote service is abstracted as a function from
(start cursor, page size) to a response. -/
def testDatabaseAccess (remote : Option String → Nat → QueryResponse)
    (startCursor : Option String) (pageSize : Nat) : ListEnvelope :=
  let resp := remote startCursor (min pageSize 100)
  { object := "list", results := resp.results.map flattenRecord,
    has_more := resp.has_more, next_cursor := resp.next_cursor, type := "page" }

/-- The loop body of `test_pagination` (main.py lines 221-236), written with
the remaining-iteration count as explicit recursion fuel. The source
increments `page_count` each round and breaks once it reaches 10, so fuel 10
with count 0 makes the fuel-exhausted branch unreachable. -/
def tpLoop (remote : Option String → Nat → QueryResponse) :
    Nat → Option String → List FlatRecord → Nat → List FlatRecord × Nat
  | 0, _, acc, count => (acc, count)
  | fuel + 1, cursor, acc, count =>
    let resp := testDatabaseAccess remote cursor 10
    let acc2 := acc ++ resp.results
    let count2 := count + 1
    if 10 ≤ count2 then (acc2, count2)
    else if resp.has_more then tpLoop remote fuel resp.next_cursor acc2 count2
    else (acc2, count2)

/-- Model of `test_pagination` (main.py lines 210-242): drives the loop with
page size 10 from a null start cursor and reports the accumulated flattened
pages plus the round count. -/
def testPagination (remote : Option String → Nat → QueryResponse) : PaginationSummary :=
  let out := tpLoop remote 10 none [] 0
  { total_pages_fetched := out.1.length, pagination_rounds := out.2, pages := out.1 }

/-- The flattened results of `n` consecutive rounds at page size 10, following
each envelope's `next_cursor`; used to state what `test_pagination` returns. -/
def tpRounds (remote : Option String → Nat → QueryResponse) :
    Nat → Option String → List FlatRecord
  | 0, _ => []
  | n + 1, cursor =>
    let e := testDatabaseAccess remote cursor 10
    e.results ++ tpRounds remote n e.next_cursor

/-- Python truthiness of the cursor in `if start_cursor:` (qr_generator.py
line 131): a falsy cursor (absent or empty string) is not sent. -/
def normCursor : Option String → Option String
  | some "" => none
  | c => c

/-- The unbounded pagination loop of `generate_all_qrs` (qr_generator.py
lines 119-139), with explicit fuel standing for a number of observed loop
iterations: `none` means the loop is still running after that many rounds.
The fixed Category filter and page size 100 are absorbed into the response
function. -/
def fetchAllBatch (pages : Option String → QueryResponse) :
    Nat → Option String → List Record → Option (List Record)
  | 0, _, _ => none
  | fuel + 1, cursor, acc =>
    let resp := pages cursor
    let acc2 := acc ++ resp.results
    if resp.has_more then fetchAllBatch pages fuel (normCursor resp.next_cursor) acc2
    else some acc2

/-- The cursor the batch loop sends on round `n` (counting from 0). -/
def iterCursor (pages : Option String → QueryResponse) (c : Option String) : Nat → Option String
  | 0 => c
  | n + 1 => iterCursor pages (normCursor (pages c).next_cursor) n

/-- Python `str.isalnum` on one character, tabulated exactly for code points
below 0x100 (Basic Latin and Latin-1 Supplement: the ASCII alphanumerics,
the ordinal indicators, the micro sign, the superscript digits, the vulgar
fractions, and the accented letters other than the multiplication and
division signs); higher code points are outside the tabulated fragment. -/
def pyIsAlnum (c : Char) : Bool :=
  let n := c.toNat
  if n < 128 then c.isAlphanum
  else
    n == 0xAA || n == 0xB2 || n == 0xB3 || n == 0xB5 || n == 0xB9 || n == 0xBA ||
    (0xBC ≤ n && n ≤ 0xBE) ||
    (0xC0 ≤ n && n ≤ 0xFF && n != 0xD7 && n != 0xF7)

/-- Python `str.isspace` on one character, tabulated for code points below
0x100 (tab through carriage return, the file/group/record/unit separators,
space, next line, no-break space). -/
def pyIsSpace (c : Char) : Bool :=
  let n := c.toNat
  (9 ≤ n && n ≤ 13) || (28 ≤ n && n ≤ 31) || n == 32 || n == 0x85 || n == 0xA0

/-- Python `str.strip()` on a character list: whitespace removed at both ends. -/
def pyStrip (cs : List Char) : List Char :=
  ((cs.dropWhile pyIsSpace).reverse.dropWhile pyIsSpace).reverse

/-- Tail of Python's integer-literal digit run: digits with single
underscores allowed between digits. -/
def pyIntRest : List Char → Bool
  | [] => true
  | '_' :: c :: rest => c.isDigit && pyIntRest rest
  | c :: rest => c.isDigit && pyIntRest rest

/-- A nonempty Python digit run (underscores only between digits). -/
def pyDigitsOk : List Char → Bool
  | [] => false
  | c :: rest => c.isDigit && pyIntRest rest

/-- Numeric value of a digit run, skipping grouping underscores. -/
def digitsToNat (cs : List Char) : Nat :=
  cs.foldl (fun acc c => if c == '_' then acc else acc * 10 + (c.toNat - 48)) 0

/-- Python `int(s)` on strings drawn from the modelled character range:
surrounding whitespace stripped, one optional sign, then a nonempty digit
run; `none` where Python raises ValueError. -/
def pyInt (s : String) : Option Int :=
  let t := pyStrip s.data
  match t with
  | '+' :: rest => if pyDigitsOk rest then some (digitsToNat rest) else none
  | '-' :: rest => if pyDigitsOk rest then some (-(digitsToNat rest : Int)) else none
  | _ => if pyDigitsOk t then some (digitsToNat t) else none

/-- Name extraction of the grouping pass (qr_generator.py line 147):
`item['properties']['Item']['title'][0]['text']['content']`, with `none` for
any failing access (missing property, wrong kind, empty fragment list,
missing text content) — each raises and makes the loop skip the record. -/
def extractName (props : List (String × TypedProperty)) : Option String :=
  match lookupProp "Item" props with
  | some (.title (f :: _)) => f.content
  | _ => none

/-- Whether the bag holds an `Item` property of kind title with at least one
fragment (the guard the spec's `extract_item_name` contract names). -/
def hasItemTitle (props : List (String × TypedProperty)) : Bool :=
  match lookupProp "Item" props with
  | some (.title (_ :: _)) => true
  | _ => false

/-- Python `item['properties'].get('Quantity', \x7b\x7d).get('rich_text', [])`
(qr_generator.py line 157): the fragment list of a rich-text `Quantity`
property, `[]` when the property is absent or of another kind. -/
def qtyFragments (props : List (String × TypedProperty)) : List Fragment :=
  match lookupProp "Quantity" props with
  | some (.rich_text fs) => fs
  | _ => []

/-- The amount added to a group's `total_quantity` for one record
(qr_generator.py lines 156-162): if the first `Quantity` fragment has truthy
text content, add `int(content)` on success and 1 on ValueError; otherwise the
guard fails silently and nothing is added. -/
def quantityDelta (props : List (String × TypedProperty)) : Int :=
  match qtyFragments props with
  | [] => 0
  | f :: _ =>
    match f.content with
    | none => 0
    | some s =>
      if s = "" then 0
      else
        match pyInt s with
        | some n => n
        | none => 1

/-- One name's accumulated group state (qr_generator.py lines 149-152). -/
structure ItemGroup where
  items : List Record
  total_quantity : Int
deriving DecidableEq

/-- Lookup in the insertion-ordered grouping dict. -/
def lookupG (name : String) : List (String × ItemGroup) → Option ItemGroup
  | [] => none
  | (k, g) :: rest => if k = name then some g else lookupG name rest

/-- Create-if-absent then append/add for one record (qr_generator.py lines
148-162): a Python dict keeps insertion order, so a fresh name goes to the
end and an existing entry is updated in place. -/
def addToGroup (m : List (String × ItemGroup)) (name : String) (r : Record) (d : Int) :
    List (String × ItemGroup) :=
  match m with
  | [] => [(name, { items := [r], total_quantity := d })]
  | (k, g) :: rest =>
    if k = name then
      (k, { items := g.items ++ [r], total_quantity := g.total_quantity + d }) :: rest
    else (k, g) :: addToGroup rest name r d

/-- One iteration of the grouping loop (qr_generator.py lines 145-166): a
record whose name extraction fails is skipped, otherwise it is appended to
its name's group and the quantity delta is added. -/
def groupStep (m : List (String × ItemGroup)) (r : Record) : List (String × ItemGroup) :=
  match extractName r.properties with
  | none => m
  | some name => addToGroup m name r (quantityDelta r.properties)

/-- The whole grouping pass over the fetched records
(qr_generator.py lines 144-166). -/
def groupByName (rs : List Record) : List (String × ItemGroup) :=
  rs.foldl groupStep []

/-- The character filter of the safe filename (qr_generator.py line 83):
`c.isalnum() or c in (' ', '-', '_')`. -/
def keepChar (c : Char) : Bool :=
  pyIsAlnum c || c = ' ' || c = '-' || c = '_'

/-- The sanitized filename stem (qr_generator.py line 83): keep the allowed
characters, then `rstrip()` trailing whitespace. -/
def safeFilename (name : String) : String :=
  String.mk (((name.data.filter keepChar).reverse.dropWhile pyIsSpace).reverse)

/-- Python `page_id.replace('-', '')` (qr_generator.py line 66). -/
def stripHyphens (s : String) : String :=
  String.mk (s.data.filter (fun c => c ≠ '-'))

/-- The encoded target URL (qr_generator.py line 66). -/
def notionUrl (pageId : String) : String :=
  "https://www.notion.so/" ++ stripHyphens pageId

/-- Model of `generate_item_qr` (qr_generator.py lines 51-91): the saved
filename and the encoded URL, or `none` when the `Item` title is missing,
empty, or lacks text content (the function raises and the caller catches and
skips). `today` stands for the current date formatted as YYYYMMDD. -/
def generateItemQr (today : String) (pageId : String)
    (props : List (String × TypedProperty)) : Option (String × String) :=
  match lookupProp "Item" props with
  | some (.title (f :: _)) =>
    match f.content with
    | some itemName =>
      some (safeFilename itemName ++ "_" ++ today ++ ".png", notionUrl pageId)
    | none => none
  | _ => none

/-- Rendering of one group (qr_generator.py lines 170-184): the first member's
id and properties are used; an empty member list would raise IndexError and
be skipped by the surrounding except. -/
def renderGroup (today : String) (g : ItemGroup) : Option (String × String) :=
  match g.items with
  | [] => none
  | first :: _ => generateItemQr today first.id first.properties

/-- The rendering driver over all groups (qr_generator.py lines 168-184),
collecting the artifacts actually produced. -/
def renderGroups (today : String) (rs : List Record) : List (String × String) :=
  (groupByName rs).filterMap (fun p => renderGroup today p.2)

/-- Spec-side concatenation rule of claim C4, written as literal recursion
over the fragment sequence. -/
def specConcat : List Fragment → String
  | [] => ""
  | f :: fs => f.plain_text ++ specConcat fs

/-- Claim C8's character class, following the spec's words: A-Z, a-z, 0-9,
space, underscore, hyphen. -/
def specAsciiKeep (c : Char) : Bool :=
  ('A' ≤ c && c ≤ 'Z') || ('a' ≤ c && c ≤ 'z') || ('0' ≤ c && c ≤ '9') ||
  c = ' ' || c = '_' || c = '-'

/-- Claim C8's filename stem, following the spec's words: keep only the ASCII
class, then trim trailing whitespace. -/
def specSafeFilename (name : String) : String :=
  String.mk (((name.data.filter specAsciiKeep).reverse.dropWhile pyIsSpace).reverse)

/-- Whether a record's extracted name equals `name`. -/
def matchesName (name : String) (r : Record) : Bool :=
  decide (extractName r.properties = some name)

/-- The summed quantity deltas of the records matching `name`. -/
def nameDeltaSum (name : String) (rs : List Record) : Int :=
  ((rs.filter (matchesName name)).map (fun r => quantityDelta r.properties)).sum

/-- A remote that always reports another page: used to exhibit the missing
round cap of the batch loop. -/
def alwaysMorePages : Option String → QueryResponse :=
  fun _ => { results := [], has_more := true, next_cursor := none }

/-- A remote for the HTTP path that always reports another page. -/
def alwaysMoreRemote : Option String → Nat → QueryResponse :=
  fun _ _ => { results := [], has_more := true, next_cursor := none }

/-- Example record: `Item` title "Widget", no `Quantity` property. -/
def recNoQty : Record :=
  { id := "aa-11", url := "u1", created_time := "t1", last_edited_time := "t1",
    properties := [("Item", .title [⟨"Widget", some "Widget"⟩])] }

/-- Example record: `Item` title "Widget", `Quantity` rich text "5". -/
def recQty5 : Record :=
  { id := "bb-22", url := "u2", created_time := "t2", last_edited_time := "t2",
    properties := [("Item", .title [⟨"Widget", some "Widget"⟩]),
                   ("Quantity", .rich_text [⟨"5", some "5"⟩])] }

/-- Example record: `Item` title "Widget", non-numeric `Quantity` "abc". -/
def recQtyAbc : Record :=
  { id := "cc-33", url := "u3", created_time := "t3", last_edited_time := "t3",
    properties := [("Item", .title [⟨"Widget", some "Widget"⟩]),
                   ("Quantity", .rich_text [⟨"abc", some "abc"⟩])] }

/-- Example record with no `Item` property at all. -/
def recNoItem : Record :=
  { id := "dd-44", url := "u4", created_time := "t4", last_edited_time := "t4",
    properties := [("Category", .other "multi_select" (.strList ["Semi-consumable"]))] }

/-- Shared first fragment of the two C9 example titles. -/
def fragWid : Fragment := ⟨"Wid", some "Wid"⟩

/-- Example record whose title is the fragments "Wid" then "get". -/
def recC9a : Record :=
  { id := "ee-55", url := "u5", created_time := "t5", last_edited_time := "t5",
    properties := [("Item", .title [fragWid, ⟨"get", some "get"⟩])] }

/-- Example record whose title is the fragments "Wid" then "GETTER". -/
def recC9b : Record :=
  { id := "ff-66", url := "u6", created_time := "t6", last_edited_time := "t6",
    properties := [("Item", .title [fragWid, ⟨"GETTER", some "GETTER"⟩])] }

/-- Example property bag whose item name is the single character e-acute. -/
def propsEAcute : List (String × TypedProperty) :=
  [("Item", .title [⟨"é", some "é"⟩])]

/-- Example record with a different item name, "Bolt". -/
def recBolt : Record :=
  { id := "gg-77", url := "u7", created_time := "t7", last_edited_time := "t7",
    properties := [("Item", .title [⟨"Bolt", some "Bolt"⟩])] }

/-- Example record whose item name is "Widget " with a trailing space. -/
def recWidgetSpace : Record :=
  { id := "hh-88", url := "u8", created_time := "t8", last_edited_time := "t8",
    properties := [("Item", .title [⟨"Widget ", some "Widget "⟩])] }

/-! ## Helper lemmas about string concatenation and the flattener -/

theorem strFoldlShift (l : List String) (s : String) :
    l.foldl (· ++ ·) s = s ++ l.foldl (· ++ ·) "" := by
  induction l generalizing s with
  | nil => simp
  | cons a t ih =>
    simp only [List.foldl_cons]
    rw [ih (s ++ a), ih ("" ++ a), String.empty_append, String.append_assoc]

theorem joinCons (a : String) (l : List String) :
    String.join (a :: l) = a ++ String.join l := by
  show List.foldl (· ++ ·) "" (a :: l) = a ++ List.foldl (· ++ ·) "" l
  rw [List.foldl_cons, strFoldlShift l ("" ++ a), String.empty_append]

theorem joinPlainText_eq_specConcat (fs : List Fragment) :
    joinPlainText fs = specConcat fs := by
  induction fs with
  | nil => rfl
  | cons f t ih =>
    simp only [joinPlainText, List.map_cons, specConcat] at *
    rw [joinCons, ih]

/-- C4: the flattener maps each property by its declared kind — `title` and
`rich_text` become the concatenation of every fragment's `plain_text` in
source order (an empty fragment sequence yields the empty string), and every
other kind's payload is passed through verbatim, the property names being
kept. -/
theorem c4_flatten_dispatch (props : List (String × TypedProperty)) :
    flattenProps props = props.map (fun p => (p.1,
      match p.2 with
      | .title fs => Value.str (specConcat fs)
      | .rich_text fs => Value.str (specConcat fs)
      | .other _ v => v)) ∧
    specConcat [] = "" := by
  refine ⟨?_, rfl⟩
  unfold flattenProps
  apply List.map_congr_left
  intro p _
  cases hp : p.2 with
  | title fs => simp [flattenProp, joinPlainText_eq_specConcat]
  | rich_text fs => simp [flattenProp, joinPlainText_eq_specConcat]
  | other k v => simp [flattenProp]

/-- C5: flattening is idempotent on its output — re-flattening an
already-flattened property bag, with each value re-tagged as a pass-through
`other` kind, returns the bag unchanged. -/
theorem c5_flatten_idempotent (ps : List (String × Value)) (kindOf : String → String) :
    flattenProps (ps.map (fun p => (p.1, TypedProperty.other (kindOf p.1) p.2))) = ps := by
  induction ps with
  | nil => rfl
  | cons p t ih => simp [flattenProps, flattenProp] at *; exact ih

/-! ## Helper lemmas about the grouping pass -/

theorem lookupG_addToGroup_self (m : List (String × ItemGroup)) (name : String)
    (r : Record) (d : Int) :
    lookupG name (addToGroup m name r d) =
      some { items := ((lookupG name m).getD ⟨[], 0⟩).items ++ [r],
             total_quantity := ((lookupG name m).getD ⟨[], 0⟩).total_quantity + d } := by
  induction m with
  | nil => simp [addToGroup, lookupG]
  | cons hd tl ih =>
    obtain ⟨k, g⟩ := hd
    by_cases hk : k = name
    · subst hk
      simp [addToGroup, lookupG]
    · simp [addToGroup, lookupG, hk, ih]

theorem lookupG_addToGroup_ne (m : List (String × ItemGroup)) (name nm : String)
    (r : Record) (d : Int) (h : name ≠ nm) :
    lookupG name (addToGroup m nm r d) = lookupG name m := by
  have hsym : nm ≠ name := Ne.symm h
  induction m with
  | nil => simp [addToGroup, lookupG, hsym]
  | cons hd tl ih =>
    obtain ⟨k, g⟩ := hd
    by_cases hk : k = nm
    · subst hk
      simp [addToGroup, lookupG, hsym]
    · simp only [addToGroup, if_neg hk]
      by_cases hkn : k = name
      · simp [lookupG, hkn]
      · simp [lookupG, hkn, ih]

theorem lookupG_foldl_some (rs : List Record) :
    ∀ (m : List (String × ItemGroup)) (name : String) (g : ItemGroup),
      lookupG name m = some g →
      lookupG name (rs.foldl groupStep m) =
        some { items := g.items ++ rs.filter (matchesName name),
               total_quantity := g.total_quantity + nameDeltaSum name rs } := by
  induction rs with
  | nil =>
    intro m name g h
    simp [nameDeltaSum, h]
  | cons r rest ih =>
    intro m name g h
    rw [List.foldl_cons]
    cases hna : extractName r.properties with
    | none =>
      have hstep : groupStep m r = m := by simp [groupStep, hna]
      have hmatch : matchesName name r = false := by simp [matchesName, hna]
      rw [hstep, ih m name g h]
      simp [hmatch, nameDeltaSum]
    | some nm =>
      have hstep : groupStep m r = addToGroup m nm r (quantityDelta r.properties) := by
        simp [groupStep, hna]
      by_cases hnm : nm = name
      · subst hnm
        have hmatch : matchesName nm r = true := by simp [matchesName, hna]
        have hlook := lookupG_addToGroup_self m nm r (quantityDelta r.properties)
        rw [h] at hlook
        simp only [Option.getD_some] at hlook
        rw [hstep, ih _ nm _ hlook]
        simp only [hmatch, List.filter_cons_of_pos, nameDeltaSum, List.map_cons,
          List.sum_cons, Option.some.injEq, ItemGroup.mk.injEq]
        constructor
        · simp [List.append_assoc]
        · omega
      · have hne : name ≠ nm := fun hc => hnm hc.symm
        have hmatch : matchesName name r = false := by
          simp [matchesName, hna, Ne.symm hne]
        have hlook : lookupG name (addToGroup m nm r (quantityDelta r.properties)) = some g := by
          rw [lookupG_addToGroup_ne m name nm r _ hne, h]
        rw [hstep, ih _ name g hlook]
        simp [hmatch, nameDeltaSum]

theorem lookupG_foldl_none (rs : List Record) :
    ∀ (m : List (String × ItemGroup)) (name : String),
      lookupG name m = none →
      lookupG name (rs.foldl groupStep m) =
        if rs.any (matchesName name) then
          some { items := rs.filter (matchesName name),
                 total_quantity := nameDeltaSum name rs }
        else none := by
  induction rs with
  | nil =>
    intro m name h
    simp [h]
  | cons r rest ih =>
    intro m name h
    rw [List.foldl_cons]
    cases hna : extractName r.properties with
    | none =>
      have hstep : groupStep m r = m := by simp [groupStep, hna]
      have hmatch : matchesName name r = false := by simp [matchesName, hna]
      rw [hstep, ih m name h]
      simp [hmatch, nameDeltaSum]
    | some nm =>
      have hstep : groupStep m r = addToGroup m nm r (quantityDelta r.properties) := by
        simp [groupStep, hna]
      by_cases hnm : nm = name
      · subst hnm
        have hmatch : matchesName nm r = true := by simp [matchesName, hna]
        have hlook := lookupG_addToGroup_self m nm r (quantityDelta r.properties)
        rw [h] at hlook
        simp only [Option.getD_none] at hlook
        rw [hstep, lookupG_foldl_some rest _ nm _ hlook]
        simp only [List.any_cons, hmatch, Bool.true_or, if_true,
          List.filter_cons_of_pos, nameDeltaSum, List.map_cons, List.sum_cons,
          Option.some.injEq, ItemGroup.mk.injEq]
        constructor
        · simp
        · omega
      · have hne : name ≠ nm := fun hc => hnm hc.symm
        have hmatch : matchesName name r = false := by
          simp [matchesName, hna, Ne.symm hne]
        have hlook : lookupG name (addToGroup m nm r (quantityDelta r.properties)) = none := by
          rw [lookupG_addToGroup_ne m name nm r _ hne, h]
        rw [hstep, ih _ name hlook]
        simp [hmatch, nameDeltaSum]

theorem lookupG_groupByName (rs : List Record) (name : String) :
    lookupG name (groupByName rs) =
      if rs.any (matchesName name) then
        some { items := rs.filter (matchesName name),
               total_quantity := nameDeltaSum name rs }
      else none :=
  lookupG_foldl_none rs [] name rfl

theorem extractNameNone {props : List (String × TypedProperty)}
    (h : hasItemTitle props = false) : extractName props = none := by
  cases hl : lookupProp "Item" props with
  | none => simp [extractName, hl]
  | some p =>
    cases p with
    | title fs =>
      cases fs with
      | nil => simp [extractName, hl]
      | cons f t => simp [hasItemTitle, hl] at h
    | rich_text fs => simp [extractName, hl]
    | other k v => simp [extractName, hl]

/-- Claim C6: the grouping pass groups by the raw extracted name with no
normalization — the group looked up under a name holds exactly the records
whose extracted name is that identical string, in input order, and exists
exactly when such a record occurs; concretely, two "Widget" records share one
group of two members, a "Bolt" record forms its own group, and "Widget" and
"Widget " (trailing space) form two distinct groups. -/
theorem c6_group_by_raw_name (rs : List Record) (name : String) :
    (lookupG name (groupByName rs) =
      if rs.any (matchesName name) then
        some { items := rs.filter (matchesName name),
               total_quantity := nameDeltaSum name rs }
      else none) ∧
    lookupG "Widget" (groupByName [recNoQty, recQty5, recBolt]) =
      some { items := [recNoQty, recQty5], total_quantity := 5 } ∧
    lookupG "Bolt" (groupByName [recNoQty, recQty5, recBolt]) =
      some { items := [recBolt], total_quantity := 0 } ∧
    lookupG "Widget" (groupByName [recNoQty, recWidgetSpace]) =
      some { items := [recNoQty], total_quantity := 0 } ∧
    lookupG "Widget " (groupByName [recNoQty, recWidgetSpace]) =
      some { items := [recWidgetSpace], total_quantity := 0 } :=
  ⟨lookupG_groupByName rs name, by decide, by decide, by decide, by decide⟩

/-- Claim C7: a record whose properties lack an `Item` property of kind title
with at least one fragment is excluded from every group, and processing the
rest of the list is unaffected: grouping with the record present equals
grouping with it removed. -/
theorem c7_missing_title_skipped (xs ys : List Record) (r : Record)
    (h : hasItemTitle r.properties = false) :
    groupByName (xs ++ r :: ys) = groupByName (xs ++ ys) ∧
    ∀ name g, lookupG name (groupByName (xs ++ r :: ys)) = some g → r ∉ g.items := by
  have hnone := extractNameNone h
  constructor
  · unfold groupByName
    rw [List.foldl_append, List.foldl_append, List.foldl_cons]
    have hstep : groupStep (xs.foldl groupStep []) r = xs.foldl groupStep [] := by
      simp [groupStep, hnone]
    rw [hstep]
  · intro name g hg hmem
    rw [lookupG_groupByName] at hg
    by_cases hany : (xs ++ r :: ys).any (matchesName name)
    · rw [if_pos hany] at hg
      simp only [Option.some.injEq] at hg
      subst hg
      have hm := (List.mem_filter.mp hmem).2
      simp [matchesName, hnone] at hm
    · rw [if_neg hany] at hg
      exact Option.noConfusion hg

/-- Claim C7 witness at a concrete input: a record with no `Item` property
between two well-formed records changes nothing. -/
theorem c7_missing_title_skipped_witness :
    groupByName [recNoQty, recNoItem, recQty5] = groupByName [recNoQty, recQty5] :=
  (c7_missing_title_skipped [recNoQty] [recQty5] recNoItem (by decide)).1

/-- Claim C10: every group produced by the grouping pass has a nonempty
member list, its first member is the earliest record with that name in fetch
order, and the artifact rendered for the group is produced from that first
member's id and properties. -/
theorem c10_group_nonempty_first_member (today : String) (rs : List Record)
    (name : String) (g : ItemGroup)
    (h : lookupG name (groupByName rs) = some g) :
    g.items ≠ [] ∧ ∃ first, g.items.head? = some first ∧
      (rs.filter (matchesName name)).head? = some first ∧
      renderGroup today g = generateItemQr today first.id first.properties := by
  rw [lookupG_groupByName] at h
  by_cases hany : rs.any (matchesName name)
  · rw [if_pos hany] at h
    simp only [Option.some.injEq] at h
    subst h
    obtain ⟨x, hx, hmx⟩ := List.any_eq_true.mp hany
    cases hf : rs.filter (matchesName name) with
    | nil =>
      exfalso
      have hmem := List.mem_filter.mpr ⟨hx, hmx⟩
      rw [hf] at hmem
      exact List.not_mem_nil x hmem
    | cons first t =>
      constructor
      · simp [hf]
      · exact ⟨first, by simp [hf], by simp [hf], by simp [renderGroup, hf]⟩
  · rw [if_neg hany] at h
    exact Option.noConfusion h

/-- Claim C10 witness at a concrete input: the "Widget" group of two records
renders from the earlier record's id and properties. -/
theorem c10_group_nonempty_first_member_witness :
    (⟨[recNoQty, recQty5], 5⟩ : ItemGroup).items ≠ [] ∧
    ∃ first, (⟨[recNoQty, recQty5], 5⟩ : ItemGroup).items.head? = some first ∧
      (([recNoQty, recQty5].filter (matchesName "Widget"))).head? = some first ∧
      renderGroup "20240101" ⟨[recNoQty, recQty5], 5⟩ =
        generateItemQr "20240101" first.id first.properties :=
  c10_group_nonempty_first_member "20240101" [recNoQty, recQty5] "Widget"
    ⟨[recNoQty, recQty5], 5⟩ (by decide)

/-- Claim C9: the item name used for grouping and for the artifact filename is
the text content of only the first fragment of the `Item` title — later
fragments do not matter — whereas the flattener concatenates all fragments;
concretely, two records whose titles agree on the first fragment "Wid" but
differ in later fragments land in one group, while the flattener maps their
titles to different values. -/
theorem c9_first_fragment_name (props : List (String × TypedProperty))
    (f : Fragment) (fs : List Fragment) (today pageId nm : String)
    (h1 : lookupProp "Item" props = some (TypedProperty.title (f :: fs)))
    (h2 : f.content = some nm) :
    extractName props = some nm ∧
    generateItemQr today pageId props =
      some (safeFilename nm ++ "_" ++ today ++ ".png", notionUrl pageId) ∧
    lookupG "Wid" (groupByName [recC9a, recC9b]) =
      some { items := [recC9a, recC9b], total_quantity := 0 } ∧
    flattenProp (TypedProperty.title [fragWid, ⟨"get", some "get"⟩]) ≠
      flattenProp (TypedProperty.title [fragWid, ⟨"GETTER", some "GETTER"⟩]) := by
  refine ⟨?_, ?_, by decide, by decide⟩
  · simp [extractName, h1, h2]
  · simp [generateItemQr, h1, h2]

/-- Claim C9 witness at a concrete input. -/
theorem c9_first_fragment_name_witness :
    extractName recC9a.properties = some "Wid" ∧
    generateItemQr "20240101" "ee-55" recC9a.properties =
      some (safeFilename "Wid" ++ "_" ++ "20240101" ++ ".png", notionUrl "ee-55") ∧
    lookupG "Wid" (groupByName [recC9a, recC9b]) =
      some { items := [recC9a, recC9b], total_quantity := 0 } ∧
    flattenProp (TypedProperty.title [fragWid, ⟨"get", some "get"⟩]) ≠
      flattenProp (TypedProperty.title [fragWid, ⟨"GETTER", some "GETTER"⟩]) :=
  c9_first_fragment_name recC9a.properties fragWid [⟨"get", some "get"⟩]
    "20240101" "ee-55" "Wid" (by decide) (by decide)

/-- Claim C1 counterexample: the claim predicts that a record with no
`Quantity` property increments its group's `total_quantity` by exactly 1, but
processing such a record adds 0 — the truthiness guard fails silently and no
exception reaches the fallback branch. -/
theorem c1_counterexample :
    (lookupG "Widget" (groupByName [recNoQty])).map ItemGroup.total_quantity = some 0 ∧
    (lookupG "Widget" (groupByName [recNoQty])).map ItemGroup.total_quantity ≠ some 1 := by
  constructor
  · decide
  · decide

/-- Claim C1 as amended: processing a record adds exactly `quantityDelta` to
its group's `total_quantity`, where the delta is the parsed integer when the
first `Quantity` rich-text fragment has nonempty content parsing as an
integer, 1 when that content is nonempty but non-numeric, and 0 when the
`Quantity` property is missing, its fragment list is empty, or its first
fragment's content is missing or empty. -/
theorem c1_quantity_amended (m : List (String × ItemGroup)) (r : Record) (name : String)
    (h : extractName r.properties = some name) :
    (lookupG name (groupStep m r)).map ItemGroup.total_quantity =
      some (((lookupG name m).map ItemGroup.total_quantity).getD 0 +
        quantityDelta r.properties) ∧
    (∀ f fs s n, lookupProp "Quantity" r.properties = some (TypedProperty.rich_text (f :: fs)) →
      f.content = some s → s ≠ "" → pyInt s = some n → quantityDelta r.properties = n) ∧
    (∀ f fs s, lookupProp "Quantity" r.properties = some (TypedProperty.rich_text (f :: fs)) →
      f.content = some s → s ≠ "" → pyInt s = none → quantityDelta r.properties = 1) ∧
    (lookupProp "Quantity" r.properties = none → quantityDelta r.properties = 0) ∧
    (lookupProp "Quantity" r.properties = some (TypedProperty.rich_text []) →
      quantityDelta r.properties = 0) ∧
    (∀ f fs, lookupProp "Quantity" r.properties = some (TypedProperty.rich_text (f :: fs)) →
      (f.content = none ∨ f.content = some "") → quantityDelta r.properties = 0) := by
  refine ⟨?_, ?_, ?_, ?_, ?_, ?_⟩
  · have hstep : groupStep m r = addToGroup m name r (quantityDelta r.properties) := by
      simp [groupStep, h]
    rw [hstep, lookupG_addToGroup_self]
    cases hl : lookupG name m <;> simp [hl]
  · intro f fs s n hq hc hs hp
    simp [quantityDelta, qtyFragments, hq, hc, hs, hp]
  · intro f fs s hq hc hs hp
    simp [quantityDelta, qtyFragments, hq, hc, hs, hp]
  · intro hq
    simp [quantityDelta, qtyFragments, hq]
  · intro hq
    simp [quantityDelta, qtyFragments, hq]
  · intro f fs hq hc
    rcases hc with hc | hc <;> simp [quantityDelta, qtyFragments, hq, hc]

/-- Claim C1 (amended) witness at concrete inputs: a "5" quantity adds 5, a
non-numeric "abc" adds 1, a missing property adds 0, and the group update adds
exactly the delta. -/
theorem c1_quantity_amended_witness :
    (lookupG "Widget" (groupStep [] recNoQty)).map ItemGroup.total_quantity =
      some (((lookupG "Widget" ([] : List (String × ItemGroup))).map
        ItemGroup.total_quantity).getD 0 + quantityDelta recNoQty.properties) ∧
    quantityDelta recQty5.properties = 5 ∧
    quantityDelta recQtyAbc.properties = 1 ∧
    quantityDelta recNoQty.properties = 0 :=
  ⟨(c1_quantity_amended [] recNoQty "Widget" (by decide)).1,
   (c1_quantity_amended [] recQty5 "Widget" (by decide)).2.1
     ⟨"5", some "5"⟩ [] "5" 5 (by decide) (by decide) (by decide) (by decide),
   (c1_quantity_amended [] recQtyAbc "Widget" (by decide)).2.2.1
     ⟨"abc", some "abc"⟩ [] "abc" (by decide) (by decide) (by decide) (by decide),
   (c1_quantity_amended [] recNoQty "Widget" (by decide)).2.2.2.1 (by decide)⟩

/-- Claim C2 counterexample: the batch pagination loop has no round cap — with
a remote that reports `has_more` true on every round, the loop has still not
stopped after 10 rounds (the claimed cap) nor after 50. -/
theorem c2_counterexample :
    (fetchAllBatch alwaysMorePages 10 none []).isSome = false ∧
    (fetchAllBatch alwaysMorePages 50 none []).isSome = false := by
  constructor
  · decide
  · decide

/-- Claim C2 as amended: the batch path's pagination loop has no round cap —
within any number of observed rounds it has stopped exactly when some earlier
round's response reported `has_more` false; with every response reporting
`has_more` true it never stops. -/
theorem c2_batch_loop_amended (pages : Option String → QueryResponse) (fuel : Nat)
    (cursor : Option String) (acc : List Record) :
    (fetchAllBatch pages fuel cursor acc).isSome = true ↔
      ∃ i, i < fuel ∧ (pages (iterCursor pages cursor i)).has_more = false := by
  induction fuel generalizing cursor acc with
  | zero => simp [fetchAllBatch]
  | succ n ih =>
    rw [fetchAllBatch]
    cases hm : (pages cursor).has_more with
    | false =>
      simp only [hm, Bool.false_eq_true, if_false, Option.isSome_some, true_iff]
      exact ⟨0, Nat.succ_pos n, by simpa [iterCursor] using hm⟩
    | true =>
      simp only [hm, if_true]
      rw [ih]
      constructor
      · rintro ⟨i, hi, hfa⟩
        exact ⟨i + 1, by omega, by simpa [iterCursor] using hfa⟩
      · rintro ⟨i, hi, hfa⟩
        cases i with
        | zero =>
          rw [iterCursor] at hfa
          rw [hm] at hfa
          exact absurd hfa (by simp)
        | succ j =>
          exact ⟨j, by omega, by simpa [iterCursor] using hfa⟩

theorem tpLoop_all_more (remote : Option String → Nat → QueryResponse)
    (hAll : ∀ c n, (remote c n).has_more = true) :
    ∀ (fuel : Nat) (cursor : Option String) (acc : List FlatRecord) (count : Nat),
      count + fuel = 10 →
      tpLoop remote fuel cursor acc count = (acc ++ tpRounds remote fuel cursor, 10) := by
  intro fuel
  induction fuel with
  | zero =>
    intro cursor acc count hc
    simp only [tpLoop, tpRounds, List.append_nil, Prod.mk.injEq, true_and]
    omega
  | succ n ih =>
    intro cursor acc count hc
    rw [tpLoop]
    by_cases h9 : 10 ≤ count + 1
    · have hn : n = 0 := by omega
      subst hn
      rw [if_pos h9]
      have hcount : count + 1 = 10 := by omega
      simp [tpRounds, hcount]
    · rw [if_neg h9]
      have hm : (testDatabaseAccess remote cursor 10).has_more = true := by
        simp [testDatabaseAccess, hAll]
      rw [if_pos hm, ih _ _ _ (by omega), tpRounds]
      simp [List.append_assoc]

/-- Claim C3: the HTTP pagination-test loop is capped at 10 rounds — when the
remote reports `has_more` true on every request, `test_pagination` performs
exactly 10 rounds at page size 10 and returns the concatenation of those 10
rounds' flattened results, with `pagination_rounds` equal to 10 (and
`total_pages_fetched` their count); the model is a total function, so the
loop cannot run forever. -/
theorem c3_pagination_cap (remote : Option String → Nat → QueryResponse)
    (hAll : ∀ c n, (remote c n).has_more = true) :
    testPagination remote =
      { total_pages_fetched := (tpRounds remote 10 none).length,
        pagination_rounds := 10,
        pages := tpRounds remote 10 none } := by
  have h := tpLoop_all_more remote hAll 10 none [] 0 (by omega)
  simp [testPagination, h]

/-- Claim C3 witness: a remote that always reports more pages. -/
theorem c3_pagination_cap_witness :
    testPagination alwaysMoreRemote =
      { total_pages_fetched := (tpRounds alwaysMoreRemote 10 none).length,
        pagination_rounds := 10,
        pages := tpRounds alwaysMoreRemote 10 none } :=
  c3_pagination_cap alwaysMoreRemote (fun _ _ => rfl)

/-- Claim C8 counterexample: the claim predicts that every character outside
the ASCII class A-Za-z0-9 space underscore hyphen is removed from the
filename stem, but Python's `str.isalnum` keeps the non-ASCII letter e-acute:
the rendered filename keeps it while the claimed sanitization removes it. -/
theorem c8_counterexample :
    generateItemQr "20240101" "ab-c1" propsEAcute =
      some ("é_20240101.png", "https://www.notion.so/abc1") ∧
    safeFilename "é" = "é" ∧
    specSafeFilename "é" = "" ∧
    ("é_20240101.png" : String) ≠ specSafeFilename "é" ++ "_" ++ "20240101" ++ ".png" := by
  refine ⟨by decide, by decide, by decide, by decide⟩

/-- Claim C8 as amended: the rendered artifact's filename is the item name
with every character removed that is neither Python-alphanumeric
(`str.isalnum`, which also keeps non-ASCII letters and digits) nor space,
hyphen or underscore, trailing whitespace trimmed, suffixed with an
underscore, the current date and the image extension; and the encoded URL is
the fixed base concatenated with the record id with hyphens removed. -/
theorem c8_filename_url_amended (today pageId nm : String)
    (props : List (String × TypedProperty)) (f : Fragment) (fs : List Fragment)
    (h1 : lookupProp "Item" props = some (TypedProperty.title (f :: fs)))
    (h2 : f.content = some nm) :
    generateItemQr today pageId props =
      some (safeFilename nm ++ "_" ++ today ++ ".png",
            "https://www.notion.so/" ++ stripHyphens pageId) ∧
    safeFilename nm = String.mk (((nm.data.filter
      (fun c => pyIsAlnum c || c = ' ' || c = '-' || c = '_')).reverse.dropWhile
        pyIsSpace).reverse) ∧
    stripHyphens pageId = String.mk (pageId.data.filter (fun c => c ≠ '-')) := by
  refine ⟨?_, rfl, rfl⟩
  simp [generateItemQr, h1, h2, notionUrl]

/-- Claim C8 (amended) witness at a concrete input. -/
theorem c8_filename_url_amended_witness :
    generateItemQr "20240101" "aa-11" recNoQty.properties =
      some (safeFilename "Widget" ++ "_" ++ "20240101" ++ ".png",
            "https://www.notion.so/" ++ stripHyphens "aa-11") ∧
    safeFilename "Widget" = String.mk ((("Widget".data.filter
      (fun c => pyIsAlnum c || c = ' ' || c = '-' || c = '_')).reverse.dropWhile
        pyIsSpace).reverse) ∧
    stripHyphens "aa-11" = String.mk ("aa-11".data.filter (fun c => c ≠ '-')) :=
  c8_filename_url_amended "20240101" "aa-11" "Widget" recNoQty.properties
    ⟨"Widget", some "Widget"⟩ [] (by decide) (by decide)
